import Mathlib

/-!
Shallow embedding of the ECS core of the repository (src/DoOver/src/ECS/ECS.h)
and proofs about its specified properties.

Entities are identified by their integer id (modelled as `Nat`), component
values of all kinds are drawn from one value domain `α` (modelling the
type-erased pool storage: each `Pool<T>` stores values of one kind), and
`std::type_index` keys for systems are modelled as `Nat` tokens.

The bodies of `Registry::Update`, `Registry::CreateEntity`,
`Registry::KillEntity`, `Registry::AddEntityToSystems`,
`Registry::RemoveEntityFromSystems` and the `System` member functions other
than `RequireComponent` are declared in ECS.h but their translation unit is
not part of the sources; those definitions are modelled from the
specification and are marked as such in their doc comments.
-/

namespace ECS

/-- Constant `MAX_COMPONENTS` from ECS.h line 13: the width of every `Signature`. -/
def MAX_COMPONENTS : Nat := 32

/-- Type `Signature` (ECS.h line 21): `std::bitset<MAX_COMPONENTS>`, modelled as a
natural number whose binary digits are the bits of the bitset (well-formed
values are `< 2 ^ MAX_COMPONENTS`). -/
abbrev Signature := Nat

/-- Operation `bitset::set(pos)`: turn bit `pos` on. -/
def sigSet (s : Signature) (pos : Nat) : Signature := s ||| 2 ^ pos

/-- Operation `bitset::set(pos, false)`: turn bit `pos` off — AND with the 32-bit mask
holding every bit except `pos` (which is `(2^32 - 1) XOR 2^pos` for
`pos < MAX_COMPONENTS`, the only positions `bitset<32>` accepts). -/
def sigReset (s : Signature) (pos : Nat) : Signature :=
  s &&& ((2 ^ MAX_COMPONENTS - 1) ^^^ 2 ^ pos)

/-- Operation `bitset::test(pos)`: read bit `pos`. -/
def sigTest (s : Signature) (pos : Nat) : Bool := s.testBit pos

/-- The memoization state behind `Component<T>::GetId` (ECS.h lines 23-40):
`nextId` is `IComponent::nextId`, and `assigned` records, in order of first
use, the value captured by each instantiated `Component<T>`'s local
`static auto id`. Type tokens are modelled as `Nat`. -/
structure IdState where
  nextId : Nat
  assigned : List (Nat × Nat)
deriving DecidableEq, Repr

/-- Function `Component<T>::GetId` (ECS.h lines 35-39): `static auto id = nextId++;`
— on the first call for a type token the current `nextId` is captured and the
counter incremented; later calls return the captured value unchanged. -/
def IdState.GetId (st : IdState) (t : Nat) : Nat × IdState :=
  match st.assigned.find? (fun p => p.1 == t) with
  | some p => (p.2, st)
  | none => (st.nextId, ⟨st.nextId + 1, st.assigned ++ [(t, st.nextId)]⟩)

/-- Class `System` (ECS.h lines 73-90): a required component signature plus the
current list of member entities (entity ids). -/
structure System where
  componentSignature : Signature
  entities : List Nat
deriving DecidableEq, Repr

/-- Member `System::RequireComponent` (ECS.h lines 223-228): set the component's bit
in the system's required signature. The component id is passed in, standing
for `Component<TComponent>::GetId()`. -/
def System.RequireComponent (s : System) (componentId : Nat) : System :=
  { s with componentSignature := sigSet s.componentSignature componentId }

/-- Member `System::GetComponentSignature` (declared ECS.h line 86). -/
def System.GetComponentSignature (s : System) : Signature := s.componentSignature

/-- Member `System::GetSystemEntities` (declared ECS.h line 85). -/
def System.GetSystemEntities (s : System) : List Nat := s.entities

/-- Modelled from the spec: `System::AddEntityToSystem` (declared ECS.h
line 83, body not in the sources). §3 of the spec calls the membership store
"a dynamically maintained set of entities currently matching that signature",
so insertion is set-like: the entity id is appended unless already present. -/
def System.AddEntityToSystem (s : System) (e : Nat) : System :=
  if e ∈ s.entities then s else { s with entities := s.entities ++ [e] }

/-- Modelled from the spec: `System::RemoveEntityFromSystem` (declared ECS.h
line 84, body not in the sources): delete the entity id from the member set. -/
def System.RemoveEntityFromSystem (s : System) (e : Nat) : System :=
  { s with entities := s.entities.filter (fun x => x != e) }

/-- Class `Pool<T>` (ECS.h lines 103-155): a contiguous growable vector of values.
`Pool(int size = 100)` only reserves capacity, so a fresh pool has size 0. -/
structure Pool (α : Type) where
  data : List α
deriving DecidableEq, Repr

/-- Member `Pool::isEmpty` (ECS.h lines 116-119). -/
def Pool.isEmpty (p : Pool α) : Bool := p.data.isEmpty

/-- Member `Pool::GetSize` (ECS.h lines 121-124). -/
def Pool.GetSize (p : Pool α) : Nat := p.data.length

/-- Member `Pool::Resize` (ECS.h lines 126-129): `std::vector::resize(n)` — truncate
to `n` elements or pad with default-constructed values up to `n`. -/
def Pool.Resize [Inhabited α] (p : Pool α) (n : Nat) : Pool α :=
  ⟨p.data.take n ++ List.replicate (n - p.data.length) default⟩

/-- Member `Pool::Clear` (ECS.h lines 131-134). -/
def Pool.Clear (_p : Pool α) : Pool α := ⟨[]⟩

/-- Member `Pool::Add` (ECS.h lines 136-139): `push_back`. -/
def Pool.Add (p : Pool α) (v : α) : Pool α := ⟨p.data ++ [v]⟩

/-- Member `Pool::Set` (ECS.h lines 141-144): `data[index] = object`. Only indices
below the current size are defined behaviour in the source (no bounds check);
out-of-range writes are modelled as no-ops and never relied on. -/
def Pool.Set (p : Pool α) (index : Nat) (v : α) : Pool α := ⟨p.data.set index v⟩

/-- Member `Pool::Get` (ECS.h lines 146-149): `data[index]`. Only indices below the
current size are defined behaviour in the source (no bounds check). -/
def Pool.Get [Inhabited α] (p : Pool α) (index : Nat) : α := p.data.getD index default

/-- Class `Registry` (ECS.h lines 163-221). Pools are `Option` because the
`componentPools` vector is padded with `nullptr` entries; `systems` is the
`std::unordered_map<std::type_index, std::shared_ptr<System>>` modelled as an
association list keyed by type token. -/
structure Registry (α : Type) where
  numEntities : Nat := 0
  componentPools : List (Option (Pool α)) := []
  entityComponentSignatures : List Signature := []
  systems : List (Nat × System) := []
  entitiesToBeAdded : List Nat := []
  entitiesToBeKilled : List Nat := []
  freeIds : List Nat := []
deriving Repr

/-- Member `Registry::AddComponent` (ECS.h lines 230-268): grow the pool vector to
cover the component id, allocate the pool if missing, resize the pool to
`numEntities` when the entity id is beyond its size, store the value at the
entity id, and set the entity's signature bit. `componentId` stands for
`Component<TComponent>::GetId()` and `entityId` for `entity.GetId()`. -/
def Registry.AddComponent [Inhabited α] (r : Registry α)
    (componentId entityId : Nat) (v : α) : Registry α :=
  let pools0 := if r.componentPools.length ≤ componentId
    then r.componentPools ++ List.replicate (componentId + 1 - r.componentPools.length) none
    else r.componentPools
  let pools1 := match pools0.getD componentId none with
    | none => pools0.set componentId (some (Pool.mk []))
    | some _ => pools0
  let pool0 := (pools1.getD componentId none).getD (Pool.mk [])
  let pool1 := if pool0.GetSize ≤ entityId then pool0.Resize r.numEntities else pool0
  let pool2 := pool1.Set entityId v
  { r with
    componentPools := pools1.set componentId (some pool2),
    entityComponentSignatures := r.entityComponentSignatures.set entityId
      (sigSet (r.entityComponentSignatures.getD entityId 0) componentId) }

/-- Member `Registry::RemoveComponent` (ECS.h lines 270-278): clear the entity's
signature bit for the component; nothing else is touched. -/
def Registry.RemoveComponent (r : Registry α) (componentId entityId : Nat) : Registry α :=
  { r with
    entityComponentSignatures := r.entityComponentSignatures.set entityId
      (sigReset (r.entityComponentSignatures.getD entityId 0) componentId) }

/-- Member `Registry::HasComponent` (ECS.h lines 280-287). -/
def Registry.HasComponent (r : Registry α) (componentId entityId : Nat) : Bool :=
  sigTest (r.entityComponentSignatures.getD entityId 0) componentId

/-- Member `Registry::GetComponent` (ECS.h lines 289-297): index the pool of the
component by the entity id. Defined behaviour requires the pool to exist and
the index to be in range; the `getD` defaults model the partiality and are
never relied on by the theorems. -/
def Registry.GetComponent [Inhabited α] (r : Registry α) (componentId entityId : Nat) : α :=
  ((r.componentPools.getD componentId none).getD (Pool.mk [])).Get entityId

/-- Member `Registry::AddSystem` (ECS.h lines 299-304): `unordered_map::insert` —
when the key is already present the map is left unchanged, otherwise the new
entry is inserted. `tid` stands for `std::type_index(typeid(TSystem))`. -/
def Registry.AddSystem (r : Registry α) (tid : Nat) (s : System) : Registry α :=
  if r.systems.any (fun p => p.1 == tid) then r
  else { r with systems := r.systems ++ [(tid, s)] }

/-- Member `Registry::HasSystem` (ECS.h lines 313-317). -/
def Registry.HasSystem (r : Registry α) (tid : Nat) : Bool :=
  r.systems.any (fun p => p.1 == tid)

/-- Member `Registry::GetSystem` (ECS.h lines 319-324): `find` then dereference
without an absence check; the absent case is undefined behaviour in the
source and is modelled as `none`. -/
def Registry.GetSystem (r : Registry α) (tid : Nat) : Option System :=
  (r.systems.find? (fun p => p.1 == tid)).map (fun p => p.2)

/-- Member `Registry::RemoveSystem` (ECS.h lines 306-311): `find` then `erase` of the
returned iterator without an absence check; erasing the end iterator is
undefined behaviour in the source and is modelled as `none`. -/
def Registry.RemoveSystem (r : Registry α) (tid : Nat) : Option (Registry α) :=
  (r.systems.find? (fun p => p.1 == tid)).map
    (fun _ => { r with systems := r.systems.eraseP (fun p => p.1 == tid) })

/-- Modelled from the spec: `Registry::AddEntityToSystems` (declared ECS.h
lines 217-219, body not in the sources). Spec §2/§4.5: "systems are informed
of membership changes by comparing an entity's signature against each
system's required signature" — the entity is added to every system whose
required signature is a subset of the entity's signature. -/
def Registry.AddEntityToSystems (r : Registry α) (e : Nat) : Registry α :=
  let sig := r.entityComponentSignatures.getD e 0
  { r with systems := r.systems.map (fun p =>
      if sig &&& p.2.componentSignature = p.2.componentSignature
      then (p.1, p.2.AddEntityToSystem e) else p) }

/-- Modelled from the spec: `Registry::RemoveEntityFromSystems` (declared
ECS.h line 220, body not in the sources). Spec §4.5: remove the entity from
every system whose signature it matched; removal from a system not holding
the entity is a no-op, so the entity is dropped from every system's list. -/
def Registry.RemoveEntityFromSystems (r : Registry α) (e : Nat) : Registry α :=
  { r with systems := r.systems.map (fun p => (p.1, p.2.RemoveEntityFromSystem e)) }

/-- Grow the signature vector so that `n` entries exist, padding with empty
signatures (spec §4.5: "Growing the signature array happens immediately"). -/
def growSigs (sigs : List Signature) (n : Nat) : List Signature :=
  if n ≤ sigs.length then sigs else sigs ++ List.replicate (n - sigs.length) 0

/-- Insert an id into a pending set modelled as a duplicate-free list. -/
def insertPending (l : List Nat) (e : Nat) : List Nat :=
  if e ∈ l then l else l ++ [e]

/-- Modelled from the spec: `Registry::CreateEntity` (declared ECS.h line
202, body not in the sources). Spec §4.5: pop a recycled id from the free
list if one exists, otherwise allocate `numEntities++`; place the id in the
pending-creation set; grow the signature array immediately. Returns the new
entity's id together with the updated registry. -/
def Registry.CreateEntity (r : Registry α) : Nat × Registry α :=
  match r.freeIds with
  | id :: rest =>
      (id, { r with freeIds := rest,
                    entitiesToBeAdded := insertPending r.entitiesToBeAdded id,
                    entityComponentSignatures :=
                      growSigs r.entityComponentSignatures (id + 1) })
  | [] =>
      (r.numEntities,
        { r with numEntities := r.numEntities + 1,
                 entitiesToBeAdded := insertPending r.entitiesToBeAdded r.numEntities,
                 entityComponentSignatures :=
                   growSigs r.entityComponentSignatures (r.numEntities + 1) })

/-- Modelled from the spec: `Registry::KillEntity` (declared ECS.h line 203,
body not in the sources). Spec §4.5: place the id in the pending-destruction
set; nothing is cleared until the flush. -/
def Registry.KillEntity (r : Registry α) (e : Nat) : Registry α :=
  { r with entitiesToBeKilled := insertPending r.entitiesToBeKilled e }

/-- Modelled from the spec: the pending-creation phase of `Registry::Update`
(spec §4.5) — call `AddEntityToSystems` for each entity in the
pending-creation set, then clear the set. -/
def Registry.flushAdds (r : Registry α) : Registry α :=
  let r1 := r.entitiesToBeAdded.foldl (fun acc e => acc.AddEntityToSystems e) r
  { r1 with entitiesToBeAdded := [] }

/-- Modelled from the spec: the pending-destruction phase of
`Registry::Update` (spec §4.5) — for each entity in the pending-destruction
set, remove it from every system, clear its signature to all-zero and return
its id to the free list (LIFO); then clear the set. -/
def Registry.flushKills (r : Registry α) : Registry α :=
  let r1 := r.entitiesToBeKilled.foldl
      (fun acc e =>
        let acc1 := acc.RemoveEntityFromSystems e
        { acc1 with
          entityComponentSignatures := acc1.entityComponentSignatures.set e 0,
          freeIds := e :: acc1.freeIds }) r
  { r1 with entitiesToBeKilled := [] }

/-- Modelled from the spec: `Registry::Update` (declared ECS.h line 199, body
not in the sources). Spec §4.5: process pending creations by calling
`AddEntityToSystems` for each, then process pending destructions; both
pending sets are cleared after the flush. -/
def Registry.Update (r : Registry α) : Registry α :=
  (r.flushAdds).flushKills

/-- The current size of the pool for a component id (0 when the pool slot is
missing or null), as `componentPools[componentId]->GetSize()` would report. -/
def Registry.poolSize (r : Registry α) (componentId : Nat) : Nat :=
  ((r.componentPools.getD componentId none).getD (Pool.mk [])).GetSize

/-- Observer: the entity list of the system registered under `tid`, i.e.
`GetSystem<TSystem>().GetSystemEntities()` (empty when no such system). -/
def Registry.systemEntitiesOf (r : Registry α) (tid : Nat) : List Nat :=
  ((r.systems.find? (fun p => p.1 == tid)).map (fun p => p.2.entities)).getD []

/-- The effect on one system of the pending-creation phase of
`Registry::Update`: each pending entity whose signature (read from `sigs`)
is a superset of the system's required signature is added. -/
def sysAddFold (sigs : List Signature) (l : List Nat) (s : System) : System :=
  l.foldl (fun s e =>
    if sigs.getD e 0 &&& s.componentSignature = s.componentSignature
    then s.AddEntityToSystem e else s) s

/-- The effect on one system of the pending-destruction phase of
`Registry::Update`: every pending-killed entity is removed. -/
def sysKillFold (l : List Nat) (s : System) : System :=
  l.foldl (fun s e => s.RemoveEntityFromSystem e) s

/-- One `Registry` system-management call (for quantifying over call
sequences of `AddSystem` / `RemoveSystem`). -/
inductive SysOp (α : Type) where
  | add (tid : Nat) (s : System)
  | remove (tid : Nat)

/-- Apply one system-management call; a `RemoveSystem` on an absent type
(undefined behaviour in the source) is skipped. -/
def Registry.applySysOp (r : Registry α) : SysOp α → Registry α
  | SysOp.add tid s => r.AddSystem tid s
  | SysOp.remove tid => (r.RemoveSystem tid).getD r

/-- Apply a sequence of system-management calls. -/
def Registry.applySysOps (r : Registry α) (ops : List (SysOp α)) : Registry α :=
  ops.foldl Registry.applySysOp r

/-- Observer: how many entries the system map holds for one type token. -/
def Registry.countOfType (r : Registry α) (tid : Nat) : Nat :=
  r.systems.countP (fun p => p.1 == tid)

/-- Well-formedness of the component-id counter state: every assigned id is
below the counter, and distinct kinds hold distinct ids. Both hold for the
real counter, which starts at `⟨0, []⟩`. -/
def IdWf (st : IdState) : Prop :=
  (∀ p ∈ st.assigned, p.2 < st.nextId) ∧
  st.assigned.Pairwise (fun p q => p.1 ≠ q.1 ∧ p.2 ≠ q.2)

/-!  Concrete registries used by the counterexamples and witnesses.  -/

/-- A system requiring exactly component 0 (as a constructor calling
`RequireComponent` would build it). -/
def cexSystem : System := System.RequireComponent ⟨0, []⟩ 0

/-- Empty registry after `AddSystem` of `cexSystem` under type token 0. -/
def cexR1 : Registry Nat := Registry.AddSystem {} 0 cexSystem

/-- Registry after `CreateEntity` on `cexR1` (entity 0 pending creation). -/
def cexR2 : Registry Nat := (cexR1.CreateEntity).2

/-- C2 trace: flush first, so entity 0 is live with an empty signature. -/
def c2r3 : Registry Nat := cexR2.Update

/-- C2 trace: then `AddComponent` of component 0 on entity 0. -/
def c2r4 : Registry Nat := c2r3.AddComponent 0 0 7

/-- C1 trace: `AddComponent` of component 0 on entity 0 before the flush. -/
def c1r3 : Registry Nat := cexR2.AddComponent 0 0 7

/-- C1 trace: first flush — entity 0 becomes a member of the system. -/
def c1r4 : Registry Nat := c1r3.Update

/-- C1 trace: `RemoveComponent` of component 0 from entity 0. -/
def c1r5 : Registry Nat := c1r4.RemoveComponent 0 0

/-- C1 trace: a second flush with both pending sets empty. -/
def c1r6 : Registry Nat := c1r5.Update

/-- A one-entity registry (entity 0 live with empty signature) used by
witnesses. -/
def smallReg : Registry Nat :=
  { numEntities := 1, entityComponentSignatures := [0] }

/-- A registry with one registered system (token 0, requiring component 0)
and entity 0 pending creation with component 0 attached, used by witnesses. -/
def flushReg : Registry Nat :=
  { numEntities := 1, entityComponentSignatures := [1],
    systems := [(0, cexSystem)], entitiesToBeAdded := [0] }

/-!  Helper lemmas about lists.  -/

theorem getD_set_self {β : Type} (l : List β) (i : Nat) (v d : β) (h : i < l.length) :
    (l.set i v).getD i d = v := by
  simp [List.getD_eq_getElem?_getD, List.getElem?_set_self h]

theorem getD_set_ne {β : Type} (l : List β) (i j : Nat) (v d : β) (h : i ≠ j) :
    (l.set i v).getD j d = l.getD j d := by
  simp [List.getD_eq_getElem?_getD, List.getElem?_set_ne h]

theorem getD_append_left {β : Type} (l₁ l₂ : List β) (i : Nat) (d : β) (h : i < l₁.length) :
    (l₁ ++ l₂).getD i d = l₁.getD i d := by
  simp [List.getD_eq_getElem?_getD, List.getElem?_append, h]

/-!  Helper lemmas about signatures.  -/

theorem sigTest_sigSet_self (s pos : Nat) : sigTest (sigSet s pos) pos = true := by
  simp [sigTest, sigSet, Nat.testBit_two_pow_self]

theorem sigTest_sigSet_ne (s pos b : Nat) (h : b ≠ pos) :
    sigTest (sigSet s pos) b = sigTest s b := by
  simp [sigTest, sigSet, Nat.testBit_two_pow_of_ne (fun hh => h hh.symm)]

theorem sigTest_sigReset_self (s pos : Nat) (h : pos < MAX_COMPONENTS) :
    sigTest (sigReset s pos) pos = false := by
  simp [sigTest, sigReset, Nat.testBit_two_pow_self, h]

theorem sigTest_sigReset_ne (s pos b : Nat) (hs : s < 2 ^ MAX_COMPONENTS) (h : b ≠ pos) :
    sigTest (sigReset s pos) b = sigTest s b := by
  rcases Nat.lt_or_ge b MAX_COMPONENTS with hb | hb
  · simp [sigTest, sigReset, hb, Nat.testBit_two_pow_of_ne (fun hh => h hh.symm)]
  · have h1 : s.testBit b = false :=
      Nat.testBit_lt_two_pow
        (lt_of_lt_of_le hs (Nat.pow_le_pow_right (by norm_num) hb))
    simp [sigTest, sigReset, h1]

theorem sigReset_of_not_test (s pos : Nat) (hpos : pos < MAX_COMPONENTS)
    (hs : s < 2 ^ MAX_COMPONENTS) (h : sigTest s pos = false) :
    sigReset s pos = s := by
  apply Nat.eq_of_testBit_eq
  intro i
  by_cases hi : i = pos
  · subst hi
    have h2 := sigTest_sigReset_self s i hpos
    simp [sigTest] at h h2
    rw [h2, h]
  · exact sigTest_sigReset_ne s pos i hs hi

/-!  Helper lemmas about pools.  -/

theorem resize_GetSize {β : Type} [Inhabited β] (p : Pool β) (n : Nat) :
    (p.Resize n).GetSize = n := by
  simp [Pool.Resize, Pool.GetSize]
  omega

theorem set_GetSize {β : Type} (p : Pool β) (i : Nat) (v : β) :
    (p.Set i v).GetSize = p.GetSize := by
  simp [Pool.Set, Pool.GetSize]

theorem get_set_self {β : Type} [Inhabited β] (p : Pool β) (i : Nat) (v : β)
    (h : i < p.GetSize) : (p.Set i v).Get i = v :=
  getD_set_self _ _ _ _ h

/-!  C4 — removing an absent component leaves the signature unchanged.  -/

/-- C4: for every entity id that is a valid index into the registry's
signature array and every component kind (with an id below the signature
width, the only ids `bitset<32>` accepts, and a well-formed stored
signature), if the entity's signature bit for the component is already clear
then `Registry::RemoveComponent` leaves the entity's component signature
unchanged. -/
theorem C4_remove_absent_component_keeps_signature (r : Registry Nat)
    (componentId entityId : Nat)
    (h1 : entityId < r.entityComponentSignatures.length)
    (hc : componentId < MAX_COMPONENTS)
    (hw : r.entityComponentSignatures.getD entityId 0 < 2 ^ MAX_COMPONENTS)
    (h : r.HasComponent componentId entityId = false) :
    (r.RemoveComponent componentId entityId).entityComponentSignatures.getD entityId 0
      = r.entityComponentSignatures.getD entityId 0 := by
  unfold Registry.RemoveComponent
  rw [show ({ r with
      entityComponentSignatures := r.entityComponentSignatures.set entityId
        (sigReset (r.entityComponentSignatures.getD entityId 0) componentId) } :
      Registry Nat).entityComponentSignatures
    = r.entityComponentSignatures.set entityId
        (sigReset (r.entityComponentSignatures.getD entityId 0) componentId) from rfl]
  rw [getD_set_self _ _ _ _ h1]
  exact sigReset_of_not_test _ _ hc hw h

/-- Witness for C4 on a concrete registry whose entity 0 lacks component 0. -/
theorem C4_remove_absent_component_keeps_signature_witness :
    (0 < smallReg.entityComponentSignatures.length) ∧
    ((smallReg.RemoveComponent 0 0).entityComponentSignatures.getD 0 0
      = smallReg.entityComponentSignatures.getD 0 0) :=
  ⟨by decide,
   C4_remove_absent_component_keeps_signature smallReg 0 0 (by decide) (by decide)
     (by decide) (by decide)⟩

/-!  C7 — pool access/growth discipline.  -/

/-- C7 counterexample: `Pool::Add` (`push_back`) grows a pool from size 0 to
size 1 with no `Resize` call, so "growth of a pool happens only through an
explicit Resize call" is false as stated. -/
theorem C7_growth_only_by_resize_counterexample :
    (Pool.mk ([] : List Nat)).GetSize = 0 ∧
    ((Pool.mk ([] : List Nat)).Add 7).GetSize = 1 := by
  exact ⟨rfl, rfl⟩

/-- C7 (amended): for indices within the current size, `Pool::Get` and
`Pool::Set` succeed (read back what was stored, leave other slots alone) and
do not change the pool's size; the size changes only through an explicit
`Resize` (to the requested size) or `Add` (by one); out-of-range `Get`/`Set`
remain a caller contract violation (the source performs no bounds check). -/
theorem C7_get_set_preserve_size (p : Pool Nat) (i : Nat) (v : Nat)
    (h : i < p.GetSize) :
    ((p.Set i v).GetSize = p.GetSize) ∧
    ((p.Set i v).Get i = v) ∧
    (∀ j, j ≠ i → (p.Set i v).Get j = p.Get j) ∧
    (∀ n, (p.Resize n).GetSize = n) ∧
    (∀ w, (p.Add w).GetSize = p.GetSize + 1) := by
  refine ⟨set_GetSize p i v, get_set_self p i v h, ?_, resize_GetSize p, ?_⟩
  · intro j hj
    exact getD_set_ne _ _ _ _ _ (fun hh => hj hh.symm)
  · intro w
    simp [Pool.Add, Pool.GetSize]

/-- Witness for C7 (amended) on a concrete one-element pool. -/
theorem C7_get_set_preserve_size_witness :
    (0 < (Pool.mk ([3] : List Nat)).GetSize) ∧
    (((Pool.mk ([3] : List Nat)).Set 0 5).GetSize = (Pool.mk ([3] : List Nat)).GetSize) ∧
    (((Pool.mk ([3] : List Nat)).Set 0 5).Get 0 = 5) :=
  ⟨by decide,
   (C7_get_set_preserve_size (Pool.mk [3]) 0 5 (by decide)).1,
   (C7_get_set_preserve_size (Pool.mk [3]) 0 5 (by decide)).2.1⟩

/-!  C9 — `RemoveComponent` frame: only the one signature bit changes.  -/

/-- C9: for a valid entity index (with a component id below the signature
width and a well-formed stored signature), `Registry::RemoveComponent`
changes only that entity's signature bit for that component: every pool, the
system map, the counters, the pending sets and the free list are unchanged,
every other entity's signature is unchanged, the cleared bit reads false,
and every other bit of the entity's signature keeps its value. -/
theorem C9_remove_component_frame (r : Registry Nat) (componentId entityId : Nat)
    (h1 : entityId < r.entityComponentSignatures.length)
    (hc : componentId < MAX_COMPONENTS)
    (hw : r.entityComponentSignatures.getD entityId 0 < 2 ^ MAX_COMPONENTS) :
    ((r.RemoveComponent componentId entityId).componentPools = r.componentPools) ∧
    ((r.RemoveComponent componentId entityId).systems = r.systems) ∧
    ((r.RemoveComponent componentId entityId).numEntities = r.numEntities) ∧
    ((r.RemoveComponent componentId entityId).entitiesToBeAdded = r.entitiesToBeAdded) ∧
    ((r.RemoveComponent componentId entityId).entitiesToBeKilled = r.entitiesToBeKilled) ∧
    ((r.RemoveComponent componentId entityId).freeIds = r.freeIds) ∧
    (sigTest ((r.RemoveComponent componentId entityId).entityComponentSignatures.getD
        entityId 0) componentId = false) ∧
    (∀ j, j ≠ entityId →
      (r.RemoveComponent componentId entityId).entityComponentSignatures.getD j 0
        = r.entityComponentSignatures.getD j 0) ∧
    (∀ b, b ≠ componentId →
      sigTest ((r.RemoveComponent componentId entityId).entityComponentSignatures.getD
          entityId 0) b
        = sigTest (r.entityComponentSignatures.getD entityId 0) b) := by
  have hset : (r.RemoveComponent componentId entityId).entityComponentSignatures.getD
      entityId 0 = sigReset (r.entityComponentSignatures.getD entityId 0) componentId := by
    unfold Registry.RemoveComponent
    exact getD_set_self _ _ _ _ h1
  refine ⟨rfl, rfl, rfl, rfl, rfl, rfl, ?_, ?_, ?_⟩
  · rw [hset]
    exact sigTest_sigReset_self _ _ hc
  · intro j hj
    unfold Registry.RemoveComponent
    exact getD_set_ne _ _ _ _ _ (fun hh => hj hh.symm)
  · intro b hb
    rw [hset]
    exact sigTest_sigReset_ne _ _ _ hw hb

/-- Witness for C9 on a concrete registry whose entity 0 holds component 0
(signature 1), removing component 1. -/
theorem C9_remove_component_frame_witness :
    (0 < flushReg.entityComponentSignatures.length) ∧
    ((flushReg.RemoveComponent 1 0).componentPools = flushReg.componentPools) ∧
    ((flushReg.RemoveComponent 1 0).systems = flushReg.systems) ∧
    (sigTest ((flushReg.RemoveComponent 1 0).entityComponentSignatures.getD 0 0) 1
      = false) :=
  ⟨by decide,
   (C9_remove_component_frame flushReg 1 0 (by decide) (by decide) (by decide)).1,
   (C9_remove_component_frame flushReg 1 0 (by decide) (by decide) (by decide)).2.1,
   (C9_remove_component_frame flushReg 1 0 (by decide) (by decide) (by decide)).2.2.2.2.2.2.1⟩

/-!  C2 — component add/remove and system membership re-evaluation.  -/

/-- C2 counterexample: in the trace `AddSystem`, `CreateEntity`, `Update`,
`AddComponent<0>(e0)`, entity 0's signature becomes a superset of the
system's required signature, yet the system's entity list is still empty —
`Registry::AddComponent` did not re-evaluate membership synchronously. -/
theorem C2_sync_reevaluation_counterexample :
    ((c2r4.entityComponentSignatures.getD 0 0) &&& cexSystem.componentSignature
       = cexSystem.componentSignature) ∧
    (c2r4.systems = [(0, { componentSignature := 1, entities := [] })]) := by
  exact ⟨by decide, by decide⟩

/-- C2 (amended): `Registry::AddComponent` and `Registry::RemoveComponent`
update only the entity's signature (and, for add, the component pool); they
never change any system's entity list — membership is re-evaluated only when
`Registry::AddEntityToSystems` runs during an `Update` flush. -/
theorem C2_add_remove_do_not_touch_systems (r : Registry Nat)
    (componentId entityId : Nat) (v : Nat) :
    ((r.AddComponent componentId entityId v).systems = r.systems) ∧
    ((r.RemoveComponent componentId entityId).systems = r.systems) :=
  ⟨rfl, rfl⟩

/-!  C1 — system membership after an `Update` flush.  -/

theorem addEntityToSystem_componentSignature (s : System) (e : Nat) :
    (s.AddEntityToSystem e).componentSignature = s.componentSignature := by
  unfold System.AddEntityToSystem
  split <;> rfl

theorem mem_addEntityToSystem (s : System) (a e : Nat) :
    e ∈ (s.AddEntityToSystem a).entities ↔ e = a ∨ e ∈ s.entities := by
  unfold System.AddEntityToSystem
  split
  · rename_i h
    constructor
    · exact Or.inr
    · rintro (rfl | hm)
      · exact h
      · exact hm
  · simp [List.mem_append]
    tauto

theorem mem_removeEntityFromSystem (s : System) (a e : Nat) (h : e ≠ a) :
    e ∈ (s.RemoveEntityFromSystem a).entities ↔ e ∈ s.entities := by
  simp [System.RemoveEntityFromSystem, List.mem_filter, h]

theorem sysAddFold_componentSignature (sigs : List Signature) (l : List Nat) (s : System) :
    (sysAddFold sigs l s).componentSignature = s.componentSignature := by
  induction l generalizing s with
  | nil => rfl
  | cons a l ih =>
    show (sysAddFold sigs l
        (if sigs.getD a 0 &&& s.componentSignature = s.componentSignature
         then s.AddEntityToSystem a else s)).componentSignature = s.componentSignature
    rw [ih]
    split
    · exact addEntityToSystem_componentSignature s a
    · rfl

theorem mem_sysAddFold (sigs : List Signature) (l : List Nat) (s : System) (e : Nat) :
    e ∈ (sysAddFold sigs l s).entities ↔
      (e ∈ l ∧ sigs.getD e 0 &&& s.componentSignature = s.componentSignature) ∨
      e ∈ s.entities := by
  induction l generalizing s with
  | nil => simp [sysAddFold]
  | cons a l ih =>
    show e ∈ (sysAddFold sigs l
        (if sigs.getD a 0 &&& s.componentSignature = s.componentSignature
         then s.AddEntityToSystem a else s)).entities ↔ _
    rw [ih]
    by_cases hc : sigs.getD a 0 &&& s.componentSignature = s.componentSignature
    · rw [if_pos hc, addEntityToSystem_componentSignature, mem_addEntityToSystem]
      by_cases he : e = a
      · subst he
        constructor
        · intro _
          exact Or.inl ⟨List.mem_cons_self e l, hc⟩
        · intro _
          exact Or.inr (Or.inl rfl)
      · rw [List.mem_cons]
        constructor
        · rintro (⟨hl, hcond⟩ | (rfl | hm))
          · exact Or.inl ⟨Or.inr hl, hcond⟩
          · exact absurd rfl he
          · exact Or.inr hm
        · rintro (⟨(rfl | hl), hcond⟩ | hm)
          · exact absurd rfl he
          · exact Or.inl ⟨hl, hcond⟩
          · exact Or.inr (Or.inr hm)
    · rw [if_neg hc]
      by_cases he : e = a
      · subst he
        rw [List.mem_cons]
        constructor
        · rintro (⟨hl, hcond⟩ | hm)
          · exact Or.inl ⟨Or.inr hl, hcond⟩
          · exact Or.inr hm
        · rintro (⟨_, hcond⟩ | hm)
          · exact absurd hcond hc
          · exact Or.inr hm
      · rw [List.mem_cons]
        constructor
        · rintro (⟨hl, hcond⟩ | hm)
          · exact Or.inl ⟨Or.inr hl, hcond⟩
          · exact Or.inr hm
        · rintro (⟨(rfl | hl), hcond⟩ | hm)
          · exact absurd rfl he
          · exact Or.inl ⟨hl, hcond⟩
          · exact Or.inr hm

theorem sysKillFold_componentSignature (l : List Nat) (s : System) :
    (sysKillFold l s).componentSignature = s.componentSignature := by
  induction l generalizing s with
  | nil => rfl
  | cons a l ih =>
    show (sysKillFold l (s.RemoveEntityFromSystem a)).componentSignature = _
    rw [ih]
    rfl

theorem mem_sysKillFold (l : List Nat) (s : System) (e : Nat) :
    e ∉ l → (e ∈ (sysKillFold l s).entities ↔ e ∈ s.entities) := by
  induction l generalizing s with
  | nil =>
    intro _
    exact Iff.rfl
  | cons a l ih =>
    intro he
    show e ∈ (sysKillFold l (s.RemoveEntityFromSystem a)).entities ↔ _
    rw [ih _ (fun h => he (List.mem_cons_of_mem a h))]
    exact mem_removeEntityFromSystem s a e (fun h => he (by simp [h]))

theorem addEntityToSystems_systems (r : Registry α) (e : Nat) :
    (r.AddEntityToSystems e).systems = r.systems.map (fun p =>
      if r.entityComponentSignatures.getD e 0 &&& p.2.componentSignature
           = p.2.componentSignature
      then (p.1, p.2.AddEntityToSystem e) else p) := rfl

theorem addFold_state (l : List Nat) (r : Registry α) :
    ((l.foldl (fun acc e => acc.AddEntityToSystems e) r).entityComponentSignatures
        = r.entityComponentSignatures) ∧
    ((l.foldl (fun acc e => acc.AddEntityToSystems e) r).entitiesToBeKilled
        = r.entitiesToBeKilled) ∧
    ((l.foldl (fun acc e => acc.AddEntityToSystems e) r).systems
        = r.systems.map (fun p =>
            (p.1, sysAddFold r.entityComponentSignatures l p.2))) := by
  induction l generalizing r with
  | nil =>
    refine ⟨rfl, rfl, ?_⟩
    simp [sysAddFold]
  | cons a l ih =>
    obtain ⟨ih1, ih2, ih3⟩ := ih (r.AddEntityToSystems a)
    refine ⟨by rw [List.foldl_cons]; exact ih1,
            by rw [List.foldl_cons]; exact ih2, ?_⟩
    rw [List.foldl_cons, ih3]
    show (r.systems.map (fun p =>
        if r.entityComponentSignatures.getD a 0 &&& p.2.componentSignature
             = p.2.componentSignature
        then (p.1, p.2.AddEntityToSystem a) else p)).map
          (fun p => (p.1, sysAddFold r.entityComponentSignatures l p.2))
      = r.systems.map (fun p =>
          (p.1, sysAddFold r.entityComponentSignatures (a :: l) p.2))
    rw [List.map_map]
    congr 1
    funext p
    by_cases hc : r.entityComponentSignatures.getD a 0 &&& p.2.componentSignature
        = p.2.componentSignature
    · simp only [Function.comp, if_pos hc]
      show (p.1, sysAddFold r.entityComponentSignatures l (p.2.AddEntityToSystem a))
        = (p.1, sysAddFold r.entityComponentSignatures l
            (if r.entityComponentSignatures.getD a 0 &&& p.2.componentSignature
                 = p.2.componentSignature
             then p.2.AddEntityToSystem a else p.2))
      rw [if_pos hc]
    · simp only [Function.comp, if_neg hc]
      show (p.1, sysAddFold r.entityComponentSignatures l p.2)
        = (p.1, sysAddFold r.entityComponentSignatures l
            (if r.entityComponentSignatures.getD a 0 &&& p.2.componentSignature
                 = p.2.componentSignature
             then p.2.AddEntityToSystem a else p.2))
      rw [if_neg hc]

theorem killFold_systems (l : List Nat) (r : Registry α) :
    (l.foldl (fun acc e =>
        let acc1 := acc.RemoveEntityFromSystems e
        { acc1 with
          entityComponentSignatures := acc1.entityComponentSignatures.set e 0,
          freeIds := e :: acc1.freeIds }) r).systems
      = r.systems.map (fun p => (p.1, sysKillFold l p.2)) := by
  induction l generalizing r with
  | nil => simp [sysKillFold]
  | cons a l ih =>
    rw [List.foldl_cons, ih]
    show (r.systems.map (fun p => (p.1, p.2.RemoveEntityFromSystem a))).map
        (fun p => (p.1, sysKillFold l p.2))
      = r.systems.map (fun p => (p.1, sysKillFold (a :: l) p.2))
    rw [List.map_map]
    rfl

theorem flushAdds_sigs (r : Registry α) :
    (r.flushAdds).entityComponentSignatures = r.entityComponentSignatures :=
  (addFold_state r.entitiesToBeAdded r).1

theorem flushAdds_killed (r : Registry α) :
    (r.flushAdds).entitiesToBeKilled = r.entitiesToBeKilled :=
  (addFold_state r.entitiesToBeAdded r).2.1

theorem flushAdds_systems (r : Registry α) :
    (r.flushAdds).systems = r.systems.map (fun p =>
      (p.1, sysAddFold r.entityComponentSignatures r.entitiesToBeAdded p.2)) :=
  (addFold_state r.entitiesToBeAdded r).2.2

theorem flushKills_systems (r : Registry α) :
    (r.flushKills).systems = r.systems.map (fun p =>
      (p.1, sysKillFold r.entitiesToBeKilled p.2)) :=
  killFold_systems r.entitiesToBeKilled r

theorem update_systems (r : Registry α) :
    (r.Update).systems = r.systems.map (fun p =>
      (p.1, sysKillFold r.entitiesToBeKilled
        (sysAddFold r.entityComponentSignatures r.entitiesToBeAdded p.2))) := by
  unfold Registry.Update
  rw [flushKills_systems, flushAdds_killed, flushAdds_systems, List.map_map]
  rfl

theorem find?_map_key {β : Type} (l : List (Nat × β)) (f : Nat × β → Nat × β)
    (hf : ∀ p, (f p).1 = p.1) (tid : Nat) :
    (l.map f).find? (fun p => p.1 == tid) = (l.find? (fun p => p.1 == tid)).map f := by
  induction l with
  | nil => rfl
  | cons a l ih =>
    simp only [List.map_cons, List.find?_cons]
    rw [hf a]
    cases h : (a.1 == tid) <;> simp [h, ih]

/-- C1 counterexample: in the trace `AddSystem` (requiring component 0),
`CreateEntity`, `AddComponent<0>(e0)`, `Update`, `RemoveComponent<0>(e0)`,
`Update`, entity 0 is in the system's entity list immediately after the
second flush although its signature is no longer a superset of the system's
required signature — the claimed iff fails after that flush. -/
theorem C1_flush_invariant_counterexample :
    (0 ∈ c1r6.systemEntitiesOf 0) ∧
    ¬ ((c1r6.entityComponentSignatures.getD 0 0) &&& cexSystem.componentSignature
        = cexSystem.componentSignature) := by
  exact ⟨by decide, by decide⟩

/-- C1 (amended): the flush invariant holds for the entities processed from
the pending-creation set at that flush — for every entity `e` pending
creation (and not pending destruction) and every system registered under
`tid` whose list does not already hold `e`, immediately after
`Registry::Update` the entity is in that system's list iff its signature is
a superset of the system's required signature. (For entities already live
before the flush the source keeps the previous membership, as the
counterexample shows.) -/
theorem C1_flush_membership (r : Registry Nat) (e tid : Nat) (S : System)
    (hadd : e ∈ r.entitiesToBeAdded) (hkill : e ∉ r.entitiesToBeKilled)
    (hfind : r.systems.find? (fun p => p.1 == tid) = some (tid, S))
    (hnotin : e ∉ S.entities) :
    e ∈ (r.Update).systemEntitiesOf tid ↔
      (r.entityComponentSignatures.getD e 0) &&& S.componentSignature
        = S.componentSignature := by
  unfold Registry.systemEntitiesOf
  rw [update_systems,
    find?_map_key r.systems
      (fun p => (p.1, sysKillFold r.entitiesToBeKilled
        (sysAddFold r.entityComponentSignatures r.entitiesToBeAdded p.2)))
      (fun p => rfl) tid,
    hfind]
  show e ∈ (sysKillFold r.entitiesToBeKilled
      (sysAddFold r.entityComponentSignatures r.entitiesToBeAdded S)).entities ↔ _
  rw [mem_sysKillFold _ _ _ hkill, mem_sysAddFold]
  constructor
  · rintro (⟨_, hsup⟩ | hmem)
    · exact hsup
    · exact absurd hmem hnotin
  · intro hsup
    exact Or.inl ⟨hadd, hsup⟩

/-- Witness for C1 (amended) on a concrete registry with one pending entity
whose signature matches the single registered system. -/
theorem C1_flush_membership_witness :
    (0 ∈ flushReg.entitiesToBeAdded) ∧
    (0 ∈ (flushReg.Update).systemEntitiesOf 0 ↔
      (flushReg.entityComponentSignatures.getD 0 0) &&& cexSystem.componentSignature
        = cexSystem.componentSignature) :=
  ⟨by decide,
   C1_flush_membership flushReg 0 0 cexSystem (by decide) (by decide) (by decide)
     (by decide)⟩

/-!  C3 / C6 — `AddComponent` pool handling.  -/

theorem getD_of_le {β : Type} (l : List β) (i : Nat) (d : β) (h : l.length ≤ i) :
    l.getD i d = d := by
  rw [List.getD_eq_getElem?_getD, List.getElem?_eq_none h]
  rfl

theorem getD_append_replicate_none {β : Type} (l : List (Option β)) (k i : Nat)
    (h : l.length ≤ i) :
    (l ++ List.replicate k (none : Option β)).getD i none = none := by
  rcases Nat.lt_or_ge i (l.length + k) with hi | hi
  · rw [List.getD_eq_getElem?_getD, List.getElem?_append_right h,
      List.getElem?_replicate]
    split <;> rfl
  · rw [getD_of_le]
    rw [List.length_append, List.length_replicate]
    omega

theorem poolsSetGet {β : Type} [Inhabited β] (pools : List (Option (Pool β)))
    (cid : Nat) (pool : Pool β) (eid : Nat) (v : β)
    (hcid : cid < pools.length) (heid : eid < pool.GetSize) :
    (((pools.set cid (some (pool.Set eid v))).getD cid none).getD (Pool.mk [])).Get eid
      = v := by
  rw [getD_set_self _ _ _ _ hcid]
  exact get_set_self _ _ _ heid

theorem addComponent_get_aux {β : Type} [Inhabited β] (pools1 : List (Option (Pool β)))
    (cid eid n : Nat) (v : β) (hcid : cid < pools1.length) (hn : eid < n) :
    ((((pools1.set cid (some
        ((if ((pools1.getD cid none).getD (Pool.mk [])).GetSize ≤ eid
          then ((pools1.getD cid none).getD (Pool.mk [])).Resize n
          else (pools1.getD cid none).getD (Pool.mk [])).Set eid v)))).getD cid
        none).getD (Pool.mk [])).Get eid = v := by
  apply poolsSetGet _ _ _ _ _ hcid
  split
  · rw [resize_GetSize]
    exact hn
  · rename_i h
    omega

theorem addComponent_size_aux {β : Type} [Inhabited β] (pools1 : List (Option (Pool β)))
    (cid eid n : Nat) (v : β) (hcid : cid < pools1.length) (hn : eid < n) :
    (eid + 1 ≤ ((((pools1.set cid (some
        ((if ((pools1.getD cid none).getD (Pool.mk [])).GetSize ≤ eid
          then ((pools1.getD cid none).getD (Pool.mk [])).Resize n
          else (pools1.getD cid none).getD (Pool.mk [])).Set eid v)))).getD cid
        none).getD (Pool.mk [])).GetSize) ∧
    (((pools1.getD cid none).getD (Pool.mk [])).GetSize
      ≤ ((((pools1.set cid (some
        ((if ((pools1.getD cid none).getD (Pool.mk [])).GetSize ≤ eid
          then ((pools1.getD cid none).getD (Pool.mk [])).Resize n
          else (pools1.getD cid none).getD (Pool.mk [])).Set eid v)))).getD cid
        none).getD (Pool.mk [])).GetSize) := by
  rw [getD_set_self _ _ _ _ hcid]
  show eid + 1 ≤ (Pool.Set _ eid v).GetSize ∧ _ ≤ (Pool.Set _ eid v).GetSize
  rw [set_GetSize]
  split
  · rw [resize_GetSize]
    rename_i h
    omega
  · rename_i h
    omega

/-- C3: for every entity id that is a valid index into the signature array
and below `numEntities`, `Registry::AddComponent` followed by
`Registry::GetComponent` for the same component returns the stored value. -/
theorem C3_add_then_get_roundtrip (r : Registry Nat) (componentId entityId : Nat)
    (v : Nat) (_hsig : entityId < r.entityComponentSignatures.length)
    (h2 : entityId < r.numEntities) :
    (r.AddComponent componentId entityId v).GetComponent componentId entityId = v := by
  by_cases hle : r.componentPools.length ≤ componentId
  · simp only [Registry.AddComponent, Registry.GetComponent, if_pos hle]
    split
    · exact addComponent_get_aux _ _ _ _ v
        (by rw [List.length_set, List.length_append, List.length_replicate]; omega) h2
    · rename_i p hsome
      rw [getD_append_replicate_none r.componentPools _ componentId hle] at hsome
      exact Option.noConfusion hsome
  · simp only [Registry.AddComponent, Registry.GetComponent, if_neg hle]
    split
    · exact addComponent_get_aux _ _ _ _ v (by rw [List.length_set]; omega) h2
    · exact addComponent_get_aux _ _ _ _ v (by omega) h2

/-- Witness for C3 on a concrete one-entity registry. -/
theorem C3_add_then_get_roundtrip_witness :
    (0 < smallReg.numEntities) ∧
    ((smallReg.AddComponent 0 0 7).GetComponent 0 0 = 7) :=
  ⟨by decide, C3_add_then_get_roundtrip smallReg 0 0 7 (by decide) (by decide)⟩

/-- C6: if every entity currently holding the component lies below the
component's pool size, then after `Registry::AddComponent` for an entity id
below `numEntities` the pool size is at least that entity id plus one, and
again every entity holding the component (now including this one) lies below
the pool size — i.e. pool size stays at least the highest holder plus one. -/
theorem C6_pool_covers_holders (r : Registry Nat) (componentId entityId : Nat)
    (v : Nat) (h2 : entityId < r.numEntities)
    (hinv : ∀ e, sigTest (r.entityComponentSignatures.getD e 0) componentId = true →
      e < r.poolSize componentId) :
    (entityId + 1 ≤ (r.AddComponent componentId entityId v).poolSize componentId) ∧
    (∀ e, sigTest ((r.AddComponent componentId entityId v).entityComponentSignatures.getD
        e 0) componentId = true →
      e < (r.AddComponent componentId entityId v).poolSize componentId) := by
  have key : (entityId + 1 ≤ (r.AddComponent componentId entityId v).poolSize componentId) ∧
      (r.poolSize componentId
        ≤ (r.AddComponent componentId entityId v).poolSize componentId) := by
    by_cases hle : r.componentPools.length ≤ componentId
    · simp only [Registry.AddComponent, Registry.poolSize, if_pos hle]
      split
      · have haux := addComponent_size_aux
          ((r.componentPools ++ List.replicate (componentId + 1 - r.componentPools.length)
              none).set componentId (some (Pool.mk ([] : List Nat))))
          componentId entityId r.numEntities v
          (by rw [List.length_set, List.length_append, List.length_replicate]; omega) h2
        refine ⟨haux.1, ?_⟩
        rw [getD_of_le r.componentPools componentId none hle]
        exact Nat.zero_le _
      · rename_i p hsome
        rw [getD_append_replicate_none r.componentPools _ componentId hle] at hsome
        exact Option.noConfusion hsome
    · simp only [Registry.AddComponent, Registry.poolSize, if_neg hle]
      split
      · rename_i hnone
        have haux := addComponent_size_aux
          (r.componentPools.set componentId (some (Pool.mk ([] : List Nat))))
          componentId entityId r.numEntities v
          (by rw [List.length_set]; omega) h2
        refine ⟨haux.1, ?_⟩
        rw [hnone]
        exact Nat.zero_le _
      · rename_i p hsome
        have haux := addComponent_size_aux r.componentPools
          componentId entityId r.numEntities v (by omega) h2
        exact haux
  obtain ⟨hA, hB⟩ := key
  refine ⟨hA, ?_⟩
  intro e he
  by_cases hee : e = entityId
  · subst hee
    omega
  · have hsame : (r.AddComponent componentId entityId v).entityComponentSignatures.getD e 0
        = r.entityComponentSignatures.getD e 0 :=
      getD_set_ne _ _ _ _ _ (fun hh => hee hh.symm)
    rw [hsame] at he
    exact lt_of_lt_of_le (hinv e he) hB

/-- Witness for C6 on a concrete one-entity registry with no holders. -/
theorem C6_pool_covers_holders_witness :
    (0 < smallReg.numEntities) ∧
    (0 + 1 ≤ (smallReg.AddComponent 0 0 7).poolSize 0) :=
  ⟨by decide,
   (C6_pool_covers_holders smallReg 0 0 7 (by decide)
     (by
       intro e h
       exfalso
       cases e <;> simp [sigTest, smallReg] at h)).1⟩

/-!  C5 — per-type component ids.  -/

theorem getId_found (st : IdState) {t : Nat} {p : Nat × Nat}
    (h : st.assigned.find? (fun q => q.1 == t) = some p) :
    st.GetId t = (p.2, st) := by
  unfold IdState.GetId
  rw [h]

theorem getId_fresh (st : IdState) {t : Nat}
    (h : st.assigned.find? (fun q => q.1 == t) = none) :
    st.GetId t = (st.nextId, ⟨st.nextId + 1, st.assigned ++ [(t, st.nextId)]⟩) := by
  unfold IdState.GetId
  rw [h]

theorem find?_key_eq {β : Type} {l : List (Nat × β)} {t : Nat} {p : Nat × β}
    (h : l.find? (fun q => q.1 == t) = some p) : p.1 = t := by
  simpa using List.find?_some h

theorem idwf_distinct (st : IdState) (hwf : IdWf st) (p q : Nat × Nat)
    (hp : p ∈ st.assigned) (hq : q ∈ st.assigned) (hne : p.1 ≠ q.1) : p.2 ≠ q.2 := by
  have hsymm : Symmetric (fun p q : Nat × Nat => p.1 ≠ q.1 ∧ p.2 ≠ q.2) := by
    intro a b h
    exact ⟨fun hh => h.1 hh.symm, fun hh => h.2 hh.symm⟩
  have hpq : p ≠ q := fun hh => hne (by rw [hh])
  exact (List.Pairwise.forall hsymm hwf.2 hp hq hpq).2

/-- C5: component ids are memoized per kind and fresh across kinds: for any
well-formed counter state and distinct type tokens `A ≠ B`, requesting ids
in the order A, B, A yields the same id for A both times (with no state
change on the repeated call), an id for B distinct from A's, and — when both
kinds are used here for the first time — B's id strictly greater than A's
(ids increase in order of first use). -/
theorem C5_component_ids (st : IdState) (A B : Nat) (hwf : IdWf st) (hne : A ≠ B) :
    ((((st.GetId A).2).GetId B).2.GetId A).1 = (st.GetId A).1 ∧
    (((st.GetId A).2).GetId B).1 ≠ (st.GetId A).1 ∧
    (st.assigned.find? (fun q => q.1 == A) = none →
      st.assigned.find? (fun q => q.1 == B) = none →
      (st.GetId A).1 < (((st.GetId A).2).GetId B).1) ∧
    ((((st.GetId A).2).GetId B).2.GetId A).2 = (((st.GetId A).2).GetId B).2 := by
  cases hA : st.assigned.find? (fun q => q.1 == A) with
  | some pA =>
    have e1 := getId_found st hA
    cases hB : st.assigned.find? (fun q => q.1 == B) with
    | some pB =>
      have e2 := getId_found st hB
      simp only [e1, e2]
      refine ⟨by trivial, ?_, ?_, by trivial⟩
      · exact idwf_distinct st hwf pB pA (List.mem_of_find?_eq_some hB)
          (List.mem_of_find?_eq_some hA)
          (by rw [find?_key_eq hA, find?_key_eq hB]; exact fun hh => hne hh.symm)
      · intro hAnone _
        exact Option.noConfusion hAnone
    | none =>
      have e2 := getId_fresh st hB
      have hA3 : (st.assigned ++ [(B, st.nextId)]).find? (fun q => q.1 == A)
          = some pA := by
        rw [List.find?_append, hA]
        rfl
      have e3 := getId_found ⟨st.nextId + 1, st.assigned ++ [(B, st.nextId)]⟩ hA3
      simp only [e1, e2, e3]
      refine ⟨by trivial, ?_, ?_, by trivial⟩
      · have := hwf.1 pA (List.mem_of_find?_eq_some hA)
        omega
      · intro hAnone _
        exact Option.noConfusion hAnone
  | none =>
    have e1 := getId_fresh st hA
    have hBsplit : (st.assigned ++ [(A, st.nextId)]).find? (fun q => q.1 == B)
        = st.assigned.find? (fun q => q.1 == B) := by
      rw [List.find?_append]
      cases hB0 : st.assigned.find? (fun q => q.1 == B)
      · simp [List.find?_singleton, hne]
      · rfl
    cases hB : st.assigned.find? (fun q => q.1 == B) with
    | some pB =>
      have e2 := getId_found ⟨st.nextId + 1, st.assigned ++ [(A, st.nextId)]⟩
        (show (st.assigned ++ [(A, st.nextId)]).find? (fun q => q.1 == B) = some pB by
          rw [hBsplit, hB])
      have hA3 : (st.assigned ++ [(A, st.nextId)]).find? (fun q => q.1 == A)
          = some (A, st.nextId) := by
        rw [List.find?_append, hA]
        simp [List.find?_singleton]
      have e3 := getId_found ⟨st.nextId + 1, st.assigned ++ [(A, st.nextId)]⟩ hA3
      simp only [e1, e2, e3]
      refine ⟨by trivial, ?_, ?_, by trivial⟩
      · have := hwf.1 pB (List.mem_of_find?_eq_some hB)
        omega
      · intro _ hBnone
        exact Option.noConfusion hBnone
    | none =>
      have e2 := getId_fresh ⟨st.nextId + 1, st.assigned ++ [(A, st.nextId)]⟩
        (show (st.assigned ++ [(A, st.nextId)]).find? (fun q => q.1 == B) = none by
          rw [hBsplit, hB])
      have hA3 : ((st.assigned ++ [(A, st.nextId)]) ++ [(B, st.nextId + 1)]).find?
          (fun q => q.1 == A) = some (A, st.nextId) := by
        rw [List.find?_append, List.find?_append, hA]
        simp [List.find?_singleton, hne]
      have e3 := getId_found
        ⟨st.nextId + 1 + 1, (st.assigned ++ [(A, st.nextId)]) ++ [(B, st.nextId + 1)]⟩
        hA3
      simp only [e1, e2, e3]
      exact ⟨by trivial, by omega, fun _ _ => by omega, by trivial⟩

/-- Witness for C5 from the initial counter state with tokens 0 and 1. -/
theorem C5_component_ids_witness :
    (((((⟨0, []⟩ : IdState).GetId 0).2).GetId 1).2.GetId 0).1
        = ((⟨0, []⟩ : IdState).GetId 0).1 ∧
    ((((⟨0, []⟩ : IdState).GetId 0).2).GetId 1).1 ≠ ((⟨0, []⟩ : IdState).GetId 0).1 :=
  ⟨(C5_component_ids ⟨0, []⟩ 0 1
      ⟨fun p hp => absurd hp (List.not_mem_nil p), List.Pairwise.nil⟩ (by decide)).1,
   (C5_component_ids ⟨0, []⟩ 0 1
      ⟨fun p hp => absurd hp (List.not_mem_nil p), List.Pairwise.nil⟩ (by decide)).2.1⟩

/-!  C8 — at most one system instance per type.  -/

theorem countP_eraseP_le {β : Type} (l : List β) (q f : β → Bool) :
    (l.eraseP q).countP f ≤ l.countP f := by
  induction l with
  | nil => exact Nat.le_refl _
  | cons a l ih =>
    rw [List.eraseP_cons, List.countP_cons]
    cases h : q a
    · simp only [cond_false, List.countP_cons]
      split <;> omega
    · simp only [cond_true]
      split <;> omega

theorem addSystem_countOfType_le {β : Type} (r : Registry β) (tid tid' : Nat)
    (s : System) (h : r.countOfType tid' ≤ 1) :
    (r.AddSystem tid s).countOfType tid' ≤ 1 := by
  unfold Registry.countOfType at *
  unfold Registry.AddSystem
  split
  · exact h
  · rename_i hany
    show (r.systems ++ [(tid, s)]).countP (fun p => p.1 == tid') ≤ 1
    rw [List.countP_append]
    by_cases he : tid = tid'
    · subst he
      have h0 : r.systems.countP (fun p => p.1 == tid) = 0 := by
        rw [List.countP_eq_zero]
        intro a ha hpa
        exact hany (List.any_eq_true.mpr ⟨a, ha, hpa⟩)
      rw [h0]
      simp [List.countP_cons]
    · have h1 : List.countP (fun p => p.1 == tid') [(tid, s)] = 0 := by
        simp [List.countP_cons, he]
      rw [h1]
      omega

theorem applySysOp_countOfType_le {β : Type} (r : Registry β) (op : SysOp β)
    (tid' : Nat) (h : r.countOfType tid' ≤ 1) :
    (r.applySysOp op).countOfType tid' ≤ 1 := by
  cases op with
  | add tid s => exact addSystem_countOfType_le r tid tid' s h
  | remove tid =>
    show ((r.RemoveSystem tid).getD r).countOfType tid' ≤ 1
    unfold Registry.RemoveSystem
    cases hf : r.systems.find? (fun p => p.1 == tid)
    · exact h
    · exact le_trans (countP_eraseP_le _ _ _) h

theorem applySysOps_countOfType_le {β : Type} (ops : List (SysOp β)) :
    ∀ (r : Registry β) (tid' : Nat), r.countOfType tid' ≤ 1 →
      (r.applySysOps ops).countOfType tid' ≤ 1 := by
  induction ops with
  | nil =>
    intro r t h
    exact h
  | cons op rest ih =>
    intro r t h
    exact ih (r.applySysOp op) t (applySysOp_countOfType_le r op t h)

/-- C8: across any sequence of `AddSystem`/`RemoveSystem` calls the registry
holds at most one entry per system type (starting from any state that does),
and an `AddSystem` for an already-registered type leaves the system map
unchanged (no second entry): `unordered_map::insert` does not overwrite. -/
theorem C8_at_most_one_system_per_type (r : Registry Nat) (ops : List (SysOp Nat))
    (tid : Nat) (s : System) (h : r.countOfType tid ≤ 1) :
    ((r.applySysOps ops).countOfType tid ≤ 1) ∧
    (r.HasSystem tid = true → (r.AddSystem tid s).systems = r.systems) := by
  refine ⟨applySysOps_countOfType_le ops r tid h, ?_⟩
  intro hh
  have hh2 : r.systems.any (fun p => p.1 == tid) = true := hh
  unfold Registry.AddSystem
  rw [if_pos hh2]

/-- Witness for C8: adding the same system type twice from the empty map. -/
theorem C8_at_most_one_system_per_type_witness :
    (smallReg.applySysOps [SysOp.add 0 cexSystem, SysOp.add 0 cexSystem]).countOfType 0
      ≤ 1 :=
  (C8_at_most_one_system_per_type smallReg
    [SysOp.add 0 cexSystem, SysOp.add 0 cexSystem] 0 cexSystem (by decide)).1

/-!  C10 — `GetSystem`/`RemoveSystem` defined under `HasSystem`.  -/

/-- C10: whenever `HasSystem` holds for a type token, the lookup both
`GetSystem` and `RemoveSystem` perform succeeds (the dereference/erase of the
result is defined — the undefined-behaviour branch, modelled as `none`, is
unreachable), and `GetSystem` returns an instance registered under that
token. -/
theorem C10_get_remove_system_defined (r : Registry Nat) (tid : Nat)
    (h : r.HasSystem tid = true) :
    ((r.GetSystem tid).isSome = true) ∧
    ((r.RemoveSystem tid).isSome = true) ∧
    ((tid, (r.GetSystem tid).getD ⟨0, []⟩) ∈ r.systems) := by
  have hex : ∃ x, x ∈ r.systems ∧ ((fun p => p.1 == tid) x) = true :=
    List.any_eq_true.mp h
  have hsome : (r.systems.find? (fun p => p.1 == tid)).isSome = true := by
    rw [List.find?_isSome]
    exact hex
  obtain ⟨pr, hpr⟩ := Option.isSome_iff_exists.mp hsome
  have hmem := List.mem_of_find?_eq_some hpr
  have hkey : pr.1 = tid := find?_key_eq hpr
  refine ⟨?_, ?_, ?_⟩
  · unfold Registry.GetSystem
    rw [hpr]
    rfl
  · unfold Registry.RemoveSystem
    rw [hpr]
    rfl
  · unfold Registry.GetSystem
    rw [hpr]
    show (tid, pr.2) ∈ r.systems
    cases pr with
    | mk a b =>
      simp only at hkey
      rw [← hkey]
      exact hmem

/-- Witness for C10 on a concrete registry holding one system under token 0. -/
theorem C10_get_remove_system_defined_witness :
    ((flushReg.GetSystem 0).isSome = true) ∧
    ((flushReg.RemoveSystem 0).isSome = true) ∧
    ((0, (flushReg.GetSystem 0).getD ⟨0, []⟩) ∈ flushReg.systems) :=
  C10_get_remove_system_defined flushReg 0 (by decide)

end ECS
